import Mathlib

/-!
Shallow embedding of the fetch filesystem backend (src/src/Fetch.ts).

The backend keeps an in-memory index of a remote directory tree and lazily
materialises file sizes (HTTP HEAD) and file contents (HTTP GET) into the
index nodes.  The embedding below models:

* the index node tree (the FileIndex component is repository code that is
  not part of the provided sources; its resolution, traversal and node
  typing are modelled from the specification);
* JS numbers as needed for the size field (`parseInt` can yield NaN);
* the network as a pure oracle `Method -> url -> Response`, with every
  operation additionally returning the list of requests it issued;
* the public operations `stat`, `openFile`, `readFile`, `preloadFile`,
  `empty`, and the constructor's `baseUrl` normalisation, translated
  statement by statement from the source.

The filesystem state before the asynchronous index load has completed is
modelled with `index = none` (in the source, `this._index` is `undefined`
until `loadIndex` finishes); an operation that dereferences the index in
that state produces the `typeError` outcome, mirroring the JS TypeError
thrown by `undefined.getInode(...)`.
-/

set_option autoImplicit false

/-- A byte buffer (`Uint8Array` contents). -/
abbrev Bytes := List Nat

/-- The fragment of JS number semantics needed for the `size` field:
an integer or NaN (`parseInt` on a non-numeric string yields NaN). -/
inductive JSNum where
  | nan : JSNum
  | int : Int → JSNum
  deriving DecidableEq

/-- JS `<` comparison of a number against an integer: NaN compares false. -/
def jsLt : JSNum → Int → Bool
  | .nan, _ => false
  | .int v, w => decide (v < w)

/-- Digit accumulation for `parseIntJS`. -/
def digitsVal (ds : List Char) : Int :=
  ds.foldl (fun a c => a * 10 + ((c.toNat : Int) - ('0'.toNat : Int))) 0

/-- Parse an optional sign and a leading run of decimal digits; NaN when no
digit is found (JS `parseInt` semantics, radix 10). -/
def parseDigits (sign : Int) (cs : List Char) : JSNum :=
  let ds := cs.takeWhile Char.isDigit
  if ds = [] then .nan else .int (sign * digitsVal ds)

/-- Model of JS `parseInt(s, 10)`: skip leading whitespace, optional sign,
longest digit prefix; NaN when no digits. -/
def parseIntJS (s : String) : JSNum :=
  match s.data.dropWhile Char.isWhitespace with
  | '-' :: rest => parseDigits (-1) rest
  | '+' :: rest => parseDigits 1 rest
  | cs => parseDigits 1 cs

/-- The stats record attached to an index node: `size` (`-1` sentinel for
unknown), permission `mode` bits, and the lazily cached contents
(`fileData`, absent until the first GET or explicit preload). -/
structure Stats where
  size : JSNum
  mode : Nat
  fileData : Option Bytes

/-- A node of the file index: a file (with its stats record) or a directory
(stats record plus named children).  Modelled from the spec: the FileIndex
component is repository code outside the provided sources. -/
inductive IndexNode where
  | file (stats : Stats)
  | dir (stats : Stats) (children : List (String × IndexNode))

/-- The stats record of a node (`inode.toStats()` in the source). -/
def IndexNode.toStats : IndexNode → Stats
  | .file s => s
  | .dir s _ => s

/-- Whether a node is a file node (`isIndexFileInode`). -/
def IndexNode.isFile : IndexNode → Bool
  | .file _ => true
  | .dir _ _ => false

/-- Child names of a node, in index order; empty for a file. -/
def IndexNode.childNames : IndexNode → List String
  | .file _ => []
  | .dir _ cs => cs.map Prod.fst

/-- First child with the given name (children of one directory have unique
names in a JS object, so first-match equals the only match). -/
def childLookup (name : String) : List (String × IndexNode) → Option IndexNode
  | [] => none
  | (n, c) :: rest => if n = name then some c else childLookup name rest

/-- Split a path into its segments: strip separators, ignore empty segments
(leading, trailing or doubled separator).  Modelled from the spec of the
index's path normalisation. -/
def splitSegsAux : List Char → List Char → List String
  | [], acc => if acc = [] then [] else [String.mk acc.reverse]
  | '/' :: rest, acc =>
      if acc = [] then splitSegsAux rest []
      else String.mk acc.reverse :: splitSegsAux rest []
  | c :: rest, acc => splitSegsAux rest (c :: acc)

/-- Path segments of a path string. -/
def splitPath (p : String) : List String := splitSegsAux p.data []

/-- Descend from a node along a segment list; `none` when a segment is
missing or the descent hits a file node. -/
def resolveNode : IndexNode → List String → Option IndexNode
  | n, [] => some n
  | .file _, _ :: _ => none
  | .dir _ cs, seg :: rest =>
      match childLookup seg cs with
      | none => none
      | some c => resolveNode c rest

/-- Path resolution against the index root (`this._index.getInode(path)`). -/
def getInode (root : IndexNode) (p : String) : Option IndexNode :=
  resolveNode root (splitPath p)

/-- Replace the first child with the given name using `g`; the in-place
mutation of the looked-up inode's stats acts on exactly this entry. -/
def updateFirst (seg : String) (g : IndexNode → IndexNode) :
    List (String × IndexNode) → List (String × IndexNode)
  | [] => []
  | (n, c) :: xs =>
      if n = seg then (n, g c) :: xs else (n, c) :: updateFirst seg g xs

/-- Apply `f` to the node reached by the segment list (functional image of
mutating the stats object returned by path resolution). -/
def updateAt (f : IndexNode → IndexNode) : IndexNode → List String → IndexNode
  | n, [] => f n
  | .file s, _ :: _ => .file s
  | .dir s cs, seg :: rest =>
      .dir s (updateFirst seg (fun c => updateAt f c rest) cs)

mutual
/-- Clear the cached contents of every file node (the effect of iterating
the index traversal in `empty()` and nulling `fileData`). -/
def clearFileData : IndexNode → IndexNode
  | .file s => .file { s with fileData := none }
  | .dir s cs => .dir s (clearList cs)

/-- Clear the cached contents below every child entry. -/
def clearList : List (String × IndexNode) → List (String × IndexNode)
  | [] => []
  | (n, c) :: xs => (n, clearFileData c) :: clearList xs
end

/-- Size/contents agreement for one stats record: once `fileData` is set,
`size` equals its length. -/
def statsOkB (s : Stats) : Bool :=
  match s.fileData with
  | none => true
  | some b => decide (s.size = JSNum.int (b.length : Int))

mutual
/-- Size/contents agreement at every file node of a tree. -/
def nodeInvB : IndexNode → Bool
  | .file s => statsOkB s
  | .dir _ cs => childrenInvB cs

/-- Size/contents agreement below every child entry. -/
def childrenInvB : List (String × IndexNode) → Bool
  | [] => true
  | (_, c) :: xs => nodeInvB c && childrenInvB xs
end

/-- HTTP method of a request issued by the backend. -/
inductive Method where
  | get
  | head
  deriving DecidableEq

/-- A network request issued by the backend. -/
structure Request where
  method : Method
  url : String
  deriving DecidableEq

/-- The part of an HTTP response the backend inspects: `ok` (2xx status),
the status code, the `Content-Length` header (absent = `none`), and the
body bytes. -/
structure Response where
  ok : Bool
  status : Nat
  contentLength : Option String
  body : Bytes

/-- A caller credential (opaque to the backend; only the external access
check consumes it). -/
structure Cred where
  uid : Nat
  gid : Nat

/-- An open mode: whether it requests write access (`flag.isWriteable()`)
and the access bits checked against the node (`flag.mode`). -/
structure FileFlag where
  writeable : Bool
  mode : Nat

/-- The environment: the transport primitive as a pure oracle, and the
external permission check (a function of the node's mode bits and the
credential; modelled from the spec of the core's access check). -/
structure Env where
  net : Method → String → Response
  checkAccess : Nat → Nat → Cred → Bool

/-- Read-access bits constant (`R_OK`). -/
def R_OK : Nat := 4

/-- POSIX-style error kinds used by the backend. -/
inductive ErrorCode where
  | EPERM
  | ENOENT
  | EISDIR
  | EACCES
  | EIOErr
  | EINVAL
  deriving DecidableEq

/-- Outcome of an operation that fails: a typed ApiError carrying the
offending path (or URL for EIOErr), or the JS TypeError produced by
dereferencing the still-undefined index before initialization finished. -/
inductive FSError where
  | api (code : ErrorCode) (path : String)
  | typeError
  deriving DecidableEq

/-- The file-handle wrapper returned by `openFile` (`NoSyncFile` wraps the
path, flag, a stats snapshot and the byte buffer). -/
structure NoSyncFile where
  path : String
  flag : FileFlag
  stats : Stats
  buffer : Option Bytes

/-- Filesystem state: the normalised URL prefix and the index
(`none` while the asynchronous `loadIndex` has not yet assigned it). -/
structure FSState where
  prefixUrl : String
  index : Option IndexNode

/-- Size/contents agreement over the whole filesystem state. -/
def fsInvB (fs : FSState) : Bool :=
  match fs.index with
  | none => true
  | some root => nodeInvB root

/-- Constructor normalisation of `baseUrl`: a non-empty prefix must end in
the path separator (`if (baseUrl.length > 0 && baseUrl.charAt(baseUrl.length - 1) !== '/') baseUrl += '/'`). -/
def normalizeBaseUrl (b : String) : String :=
  if 0 < b.length ∧ b.data.getLast? ≠ some '/' then b ++ "/" else b

/-- State right after the constructor returns when the index option was a
URL string: the prefix is normalised, and `_index` is not yet assigned
because the JSON fetch inside `loadIndex` has not resolved. -/
def FetchFS.constructPending (baseUrl : String) : FSState :=
  { prefixUrl := normalizeBaseUrl baseUrl, index := none }

/-- Remote URL of a path: strip one leading separator, prepend the prefix
(`_getRemotePath`). -/
def getRemotePath (prefixUrl : String) (filePath : String) : String :=
  prefixUrl ++
    (if filePath.data.head? = some '/' then String.mk (filePath.data.drop 1)
     else filePath)

/-- Value the source feeds to `parseInt`: `response.headers.get('Content-Length') || '-1'`
(`null` for an absent header and the empty string are both falsy). -/
def headerVal : Option String → String
  | none => "-1"
  | some s => if s = "" then "-1" else s

/-- `fetchSize`: HEAD the URL; EIOErr on a non-ok response, otherwise
`parseInt(Content-Length || '-1', 10)`. -/
def fetchSize (env : Env) (url : String) : Except FSError JSNum × List Request :=
  let r := env.net .head url
  if r.ok then (.ok (parseIntJS (headerVal r.contentLength)), [⟨.head, url⟩])
  else (.error (.api .EIOErr url), [⟨.head, url⟩])

/-- `fetchFile(url, 'buffer')`: GET the URL; EIOErr on a non-ok response,
otherwise the body bytes. -/
def fetchFileBuf (env : Env) (url : String) : Except FSError Bytes × List Request :=
  let r := env.net .get url
  if r.ok then (.ok r.body, [⟨.get, url⟩])
  else (.error (.api .EIOErr url), [⟨.get, url⟩])

/-- `FetchFS.stat`: resolve (without awaiting readiness), ENOENT when
absent, EACCES on a failed access check, directory stats as-is; for a file
with unknown size, HEAD the remote URL and store the parsed size. -/
def FetchFS.stat (env : Env) (fs : FSState) (path : String) (cred : Cred) :
    Except FSError Stats × FSState × List Request :=
  match fs.index with
  | none => (.error .typeError, fs, [])
  | some root =>
    match getInode root path with
    | none => (.error (.api .ENOENT path), fs, [])
    | some inode =>
      if env.checkAccess inode.toStats.mode R_OK cred = true then
        match inode with
        | .dir stats _ => (.ok stats, fs, [])
        | .file stats =>
          if jsLt stats.size 0 = true then
            match fetchSize env (getRemotePath fs.prefixUrl path) with
            | (.ok sz, reqs) =>
              (.ok { stats with size := sz },
               { fs with
                  index := some (updateAt
                    (fun _ => .file { stats with size := sz }) root
                    (splitPath path)) },
               reqs)
            | (.error e, reqs) => (.error e, fs, reqs)
          else (.ok stats, fs, [])
      else (.error (.api .EACCES path), fs, [])

/-- `FetchFS.openFile`: EPERM first on any write intent, then resolve
(without awaiting readiness), ENOENT when absent, EACCES on a failed access
check; a directory yields a handle over its stats; a file yields the cached
bytes when present, otherwise one GET whose body is cached into the node
(size set to the body length). -/
def FetchFS.openFile (env : Env) (fs : FSState) (path : String)
    (flag : FileFlag) (cred : Cred) :
    Except FSError NoSyncFile × FSState × List Request :=
  if flag.writeable = true then (.error (.api .EPERM path), fs, [])
  else
    match fs.index with
    | none => (.error .typeError, fs, [])
    | some root =>
      match getInode root path with
      | none => (.error (.api .ENOENT path), fs, [])
      | some inode =>
        if env.checkAccess inode.toStats.mode flag.mode cred = true then
          match inode with
          | .dir stats _ => (.ok ⟨path, flag, stats, stats.fileData⟩, fs, [])
          | .file stats =>
            match stats.fileData with
            | some data => (.ok ⟨path, flag, stats, some data⟩, fs, [])
            | none =>
              match fetchFileBuf env (getRemotePath fs.prefixUrl path) with
              | (.ok data, reqs) =>
                (.ok ⟨path, flag,
                      { stats with size := .int (data.length : Int),
                                   fileData := some data },
                      some data⟩,
                 { fs with
                    index := some (updateAt
                      (fun _ => .file { stats with
                                          size := .int (data.length : Int),
                                          fileData := some data }) root
                      (splitPath path)) },
                 reqs)
              | (.error e, reqs) => (.error e, fs, reqs)
        else (.error (.api .EACCES path), fs, [])

/-- `FetchFS.readFile`: open, return the handle's whole buffer, close. -/
def FetchFS.readFile (env : Env) (fs : FSState) (fname : String)
    (flag : FileFlag) (cred : Cred) :
    Except FSError (Option Bytes) × FSState × List Request :=
  match FetchFS.openFile env fs fname flag cred with
  | (.ok fd, fs', reqs) => (.ok fd.buffer, fs', reqs)
  | (.error e, fs', reqs) => (.error e, fs', reqs)

/-- `FetchFS.preloadFile`: resolve (without awaiting readiness and with no
network access); the source checks `!isIndexFileInode(inode)` before the
null check, so a directory AND a missing inode both raise EISDIR and the
subsequent ENOENT branch is unreachable; a file node gets its size and
contents overwritten by the buffer. -/
def FetchFS.preloadFile (fs : FSState) (path : String) (buffer : Bytes) :
    Except FSError Unit × FSState :=
  match fs.index with
  | none => (.error .typeError, fs)
  | some root =>
    match getInode root path with
    | some (.file stats) =>
      (.ok (),
       { fs with
          index := some (updateAt
            (fun _ => .file { stats with size := .int (buffer.length : Int),
                                         fileData := some buffer }) root
            (splitPath path)) })
    | _ => (.error (.api .EISDIR path), fs)

/-- `FetchFS.empty`: null out the cached contents of every file node of the
index traversal; nothing else is touched. -/
def FetchFS.empty (fs : FSState) : Except FSError Unit × FSState :=
  match fs.index with
  | none => (.error .typeError, fs)
  | some root => (.ok (), { fs with index := some (clearFileData root) })

/-! ## Resolution, update and traversal lemmas -/

theorem childLookup_updateFirst (seg : String) (g : IndexNode → IndexNode)
    (cs : List (String × IndexNode)) :
    childLookup seg (updateFirst seg g cs) = (childLookup seg cs).map g := by
  induction cs with
  | nil => rfl
  | cons hd tl ih =>
    obtain ⟨n, c⟩ := hd
    by_cases h : n = seg <;> simp [updateFirst, childLookup, h, ih]

theorem resolve_updateAt (f : IndexNode → IndexNode) :
    ∀ (segs : List String) (n m : IndexNode),
      resolveNode n segs = some m →
      resolveNode (updateAt f n segs) segs = some (f m) := by
  intro segs
  induction segs with
  | nil =>
    intro n m h
    simp only [resolveNode, Option.some.injEq] at h
    subst h
    simp [updateAt, resolveNode]
  | cons seg rest ih =>
    intro n m h
    cases n with
    | file s => simp [resolveNode] at h
    | dir s cs =>
      simp only [resolveNode] at h
      simp only [updateAt, resolveNode, childLookup_updateFirst]
      cases hc : childLookup seg cs with
      | none => rw [hc] at h; simp at h
      | some c =>
        rw [hc] at h
        simp only [Option.map_some']
        exact ih c m h

theorem childLookup_inv (seg : String) (cs : List (String × IndexNode))
    (c : IndexNode) (hc : childLookup seg cs = some c)
    (hinv : childrenInvB cs = true) : nodeInvB c = true := by
  induction cs with
  | nil => simp [childLookup] at hc
  | cons hd tl ih =>
    obtain ⟨n, c'⟩ := hd
    simp only [childLookup] at hc
    simp only [childrenInvB, Bool.and_eq_true] at hinv
    by_cases h : n = seg
    · rw [if_pos h] at hc
      cases hc
      exact hinv.1
    · rw [if_neg h] at hc
      exact ih hc hinv.2

theorem resolve_inv :
    ∀ (segs : List String) (n m : IndexNode),
      resolveNode n segs = some m → nodeInvB n = true → nodeInvB m = true := by
  intro segs
  induction segs with
  | nil =>
    intro n m h hn
    simp only [resolveNode, Option.some.injEq] at h
    subst h
    exact hn
  | cons seg rest ih =>
    intro n m h hn
    cases n with
    | file s => simp [resolveNode] at h
    | dir s cs =>
      simp only [resolveNode] at h
      cases hc : childLookup seg cs with
      | none => rw [hc] at h; simp at h
      | some c =>
        rw [hc] at h
        simp only [nodeInvB] at hn
        exact ih c m h (childLookup_inv seg cs c hc hn)

theorem childrenInv_updateFirst (seg : String) (g : IndexNode → IndexNode)
    (hg : ∀ c, nodeInvB c = true → nodeInvB (g c) = true) :
    ∀ cs, childrenInvB cs = true → childrenInvB (updateFirst seg g cs) = true := by
  intro cs
  induction cs with
  | nil => intro h; exact h
  | cons hd tl ih =>
    obtain ⟨n, c⟩ := hd
    intro hinv
    simp only [childrenInvB, Bool.and_eq_true] at hinv
    by_cases h : n = seg
    · simp only [updateFirst, if_pos h, childrenInvB, Bool.and_eq_true]
      exact ⟨hg c hinv.1, hinv.2⟩
    · simp only [updateFirst, if_neg h, childrenInvB, Bool.and_eq_true]
      exact ⟨hinv.1, ih hinv.2⟩

theorem nodeInv_updateAt (f : IndexNode → IndexNode)
    (hf : ∀ m, nodeInvB (f m) = true) :
    ∀ (segs : List String) (n : IndexNode),
      nodeInvB n = true → nodeInvB (updateAt f n segs) = true := by
  intro segs
  induction segs with
  | nil => intro n _; simpa [updateAt] using hf n
  | cons seg rest ih =>
    intro n hn
    cases n with
    | file s => simpa [updateAt] using hn
    | dir s cs =>
      simp only [updateAt, nodeInvB]
      simp only [nodeInvB] at hn
      exact childrenInv_updateFirst seg _ (fun c hc => ih c hc) cs hn

theorem childLookup_clearList (seg : String) :
    ∀ cs, childLookup seg (clearList cs) =
      (childLookup seg cs).map clearFileData := by
  intro cs
  induction cs with
  | nil => simp [clearList, childLookup]
  | cons hd tl ih =>
    obtain ⟨n, c⟩ := hd
    by_cases h : n = seg <;> simp [clearList, childLookup, h, ih]

theorem resolve_clear :
    ∀ (segs : List String) (n : IndexNode),
      resolveNode (clearFileData n) segs =
        (resolveNode n segs).map clearFileData := by
  intro segs
  induction segs with
  | nil => intro n; simp [resolveNode]
  | cons seg rest ih =>
    intro n
    cases n with
    | file s => simp [clearFileData, resolveNode]
    | dir s cs =>
      simp only [clearFileData, resolveNode, childLookup_clearList]
      cases hc : childLookup seg cs with
      | none => simp
      | some c => simpa using ih c

theorem clearList_names :
    ∀ cs, (clearList cs).map Prod.fst = cs.map Prod.fst := by
  intro cs
  induction cs with
  | nil => simp [clearList]
  | cons hd tl ih =>
    obtain ⟨n, c⟩ := hd
    simp [clearList, ih]

mutual
theorem nodeInv_clear : ∀ n : IndexNode, nodeInvB (clearFileData n) = true
  | .file s => by simp [clearFileData, nodeInvB, statsOkB]
  | .dir s cs => by
      simp only [clearFileData, nodeInvB]
      exact chInv_clear cs

theorem chInv_clear :
    ∀ cs : List (String × IndexNode), childrenInvB (clearList cs) = true
  | [] => by simp [clearList, childrenInvB]
  | (n, c) :: xs => by
      simp only [clearList, childrenInvB, Bool.and_eq_true]
      exact ⟨nodeInv_clear c, chInv_clear xs⟩
end

/-! ## Concrete fixtures -/

/-- Example index: a file of unknown size at the root, and a subdirectory
holding a file whose two bytes are already cached. -/
def rootW : IndexNode :=
  .dir ⟨.int 0, 511, none⟩
    [("a.txt", .file ⟨.int (-1), 420, none⟩),
     ("dir", .dir ⟨.int 0, 511, none⟩
        [("b.txt", .file ⟨.int 2, 420, some [104, 105]⟩)])]

/-- Example ready filesystem state over `rootW`. -/
def fsW : FSState := ⟨"https://x/", some rootW⟩

/-- State right after construction with a URL index option, before the
index JSON fetch has resolved. -/
def fsPending : FSState := FetchFS.constructPending "https://x/"

/-- Example credential. -/
def credW : Cred := ⟨0, 0⟩

/-- A read-only open mode. -/
def flagR : FileFlag := ⟨false, 4⟩

/-- An open mode requesting write access. -/
def flagW : FileFlag := ⟨true, 6⟩

/-- Environment whose every response is ok with `Content-Length: 2` and a
two-byte body; access always granted. -/
def envW : Env := ⟨fun _ _ => ⟨true, 200, some "2", [104, 105]⟩, fun _ _ _ => true⟩

/-- Environment whose responses are ok but carry no `Content-Length`. -/
def envNoCL : Env := ⟨fun _ _ => ⟨true, 200, none, [104, 105]⟩, fun _ _ _ => true⟩

/-- Environment whose responses are ok with an unparsable `Content-Length`. -/
def envBadCL : Env := ⟨fun _ _ => ⟨true, 200, some "abc", [104, 105]⟩, fun _ _ _ => true⟩

/-! ## Claim theorems -/

/-- C1: the claim says every public index-dependent operation awaits the
readiness signal before touching the index.  In the source none of them
does: invoked on the state reachable right after construction with a URL
index option (the index JSON fetch not yet resolved, `_index` still
undefined), `stat`, `openFile`, `readFile`, `preloadFile` and `empty` all
dereference the unpopulated index immediately (the JS TypeError outcome),
instead of suspending on the readiness promise. -/
theorem c1_ops_touch_index_unready :
    FetchFS.stat envW fsPending "/a.txt" credW = (.error .typeError, fsPending, []) ∧
    FetchFS.openFile envW fsPending "/a.txt" flagR credW = (.error .typeError, fsPending, []) ∧
    FetchFS.readFile envW fsPending "/a.txt" flagR credW = (.error .typeError, fsPending, []) ∧
    FetchFS.preloadFile fsPending "/a.txt" [1] = (.error .typeError, fsPending) ∧
    FetchFS.empty fsPending = (.error .typeError, fsPending) :=
  ⟨rfl, rfl, rfl, rfl, rfl⟩

/-- C6: the claim says `preloadFile` fails ENOENT exactly when the path
resolves to no node.  In the source the `!isIndexFileInode(inode)` check
precedes the null check, so a missing path raises EISDIR and the ENOENT
branch is unreachable: preloading the absent path `/missing` yields
EISDIR. -/
theorem c6_preload_missing_eisdir :
    FetchFS.preloadFile fsW "/missing" [1, 2] =
      (.error (.api .EISDIR "/missing"), fsW) := rfl

/-- C9: `openFile` with any write-intent mode fails EPERM before the path
is resolved (even on a state whose index is unpopulated or lacks the path)
and issues no network request. -/
theorem c9_openFile_write_eperm (env : Env) (fs : FSState) (path : String)
    (flag : FileFlag) (cred : Cred) (hw : flag.writeable = true) :
    FetchFS.openFile env fs path flag cred =
      (.error (.api .EPERM path), fs, []) := by
  simp [FetchFS.openFile, hw]

/-- C9 witness: opening the nonexistent path `/nope` with write intent
yields EPERM (not ENOENT) and no request. -/
theorem c9_witness :
    FetchFS.openFile envW fsW "/nope" flagW credW =
      (.error (.api .EPERM "/nope"), fsW, []) :=
  c9_openFile_write_eperm envW fsW "/nope" flagW credW rfl

/-- C10: after construction the prefix equals the normalised `baseUrl`;
the empty default stays empty; a non-empty prefix always ends in the
separator; and a non-empty `baseUrl` not ending in the separator gets it
appended. -/
theorem c10_prefixUrl_normalization (b : String) :
    (FetchFS.constructPending b).prefixUrl = normalizeBaseUrl b ∧
    normalizeBaseUrl "" = "" ∧
    (b ≠ "" → (normalizeBaseUrl b).data.getLast? = some '/') ∧
    (b ≠ "" → b.data.getLast? ≠ some '/' → normalizeBaseUrl b = b ++ "/") := by
  have hlen : b ≠ "" → 0 < b.length := by
    intro hb
    cases b with
    | mk l =>
      cases l with
      | nil => exact absurd rfl hb
      | cons c cs => simp [String.length]
  refine ⟨rfl, by simp [normalizeBaseUrl], ?_, ?_⟩
  · intro hb
    by_cases hcond : 0 < b.length ∧ b.data.getLast? ≠ some '/'
    · rw [normalizeBaseUrl, if_pos hcond, String.data_append]
      exact List.getLast?_concat _
    · rw [normalizeBaseUrl, if_neg hcond]
      push_neg at hcond
      exact hcond (hlen hb)
  · intro hb hlast
    rw [normalizeBaseUrl, if_pos ⟨hlen hb, hlast⟩]

/-- C10 witness: the concrete `baseUrl` with no trailing separator gets one
appended, and the result ends in the separator. -/
theorem c10_witness :
    (normalizeBaseUrl "https://x").data.getLast? = some '/' ∧
    normalizeBaseUrl "https://x" = "https://x" ++ "/" :=
  ⟨(c10_prefixUrl_normalization "https://x").2.2.1 (by decide),
   (c10_prefixUrl_normalization "https://x").2.2.2 (by decide) (by decide)⟩

/-! ## Operation-level reduction lemmas -/

theorem openFile_cached (env : Env) (fs : FSState) (path : String)
    (flag : FileFlag) (cred : Cred) (root : IndexNode) (stats : Stats)
    (data : Bytes)
    (hroot : fs.index = some root)
    (hnode : getInode root path = some (.file stats))
    (hdata : stats.fileData = some data)
    (hw : flag.writeable = false)
    (hacc : env.checkAccess stats.mode flag.mode cred = true) :
    FetchFS.openFile env fs path flag cred =
      (.ok ⟨path, flag, stats, some data⟩, fs, []) := by
  simp [FetchFS.openFile, hw, hroot, hnode, IndexNode.toStats, hacc, hdata]

theorem openFile_fetch (env : Env) (fs : FSState) (path : String)
    (flag : FileFlag) (cred : Cred) (root : IndexNode) (stats : Stats)
    (hroot : fs.index = some root)
    (hnode : getInode root path = some (.file stats))
    (hdata : stats.fileData = none)
    (hw : flag.writeable = false)
    (hacc : env.checkAccess stats.mode flag.mode cred = true)
    (hok : (env.net .get (getRemotePath fs.prefixUrl path)).ok = true) :
    FetchFS.openFile env fs path flag cred =
      (.ok ⟨path, flag,
            { stats with
                size := .int (((env.net .get (getRemotePath fs.prefixUrl path)).body.length : Int)),
                fileData := some (env.net .get (getRemotePath fs.prefixUrl path)).body },
            some (env.net .get (getRemotePath fs.prefixUrl path)).body⟩,
       { fs with
          index := some (updateAt
            (fun _ => .file { stats with
                size := .int (((env.net .get (getRemotePath fs.prefixUrl path)).body.length : Int)),
                fileData := some (env.net .get (getRemotePath fs.prefixUrl path)).body })
            root (splitPath path)) },
       [⟨.get, getRemotePath fs.prefixUrl path⟩]) := by
  simp [FetchFS.openFile, hw, hroot, hnode, IndexNode.toStats, hacc, hdata,
    fetchFileBuf, hok]

theorem stat_fetch (env : Env) (fs : FSState) (path : String) (cred : Cred)
    (root : IndexNode) (stats : Stats)
    (hroot : fs.index = some root)
    (hnode : getInode root path = some (.file stats))
    (hsz : jsLt stats.size 0 = true)
    (hacc : env.checkAccess stats.mode R_OK cred = true)
    (hok : (env.net .head (getRemotePath fs.prefixUrl path)).ok = true) :
    FetchFS.stat env fs path cred =
      (.ok { stats with
              size := parseIntJS (headerVal
                (env.net .head (getRemotePath fs.prefixUrl path)).contentLength) },
       { fs with
          index := some (updateAt
            (fun _ => .file { stats with
                size := parseIntJS (headerVal
                  (env.net .head (getRemotePath fs.prefixUrl path)).contentLength) })
            root (splitPath path)) },
       [⟨.head, getRemotePath fs.prefixUrl path⟩]) := by
  simp [FetchFS.stat, hroot, hnode, IndexNode.toStats, hacc, hsz, fetchSize, hok]

theorem stat_cached (env : Env) (fs : FSState) (path : String) (cred : Cred)
    (root : IndexNode) (stats : Stats)
    (hroot : fs.index = some root)
    (hnode : getInode root path = some (.file stats))
    (hsz : jsLt stats.size 0 = false)
    (hacc : env.checkAccess stats.mode R_OK cred = true) :
    FetchFS.stat env fs path cred = (.ok stats, fs, []) := by
  simp [FetchFS.stat, hroot, hnode, IndexNode.toStats, hacc, hsz]

/-- C2: on a file whose bytes are not yet cached, `openFile` issues exactly
one GET and returns a handle whose full buffer is exactly that GET's body;
`readFile` (open, read whole buffer, close) returns the same bytes; and a
second `openFile` on the resulting state returns the same bytes while
issuing no request at all. -/
theorem c2_open_then_read_round_trip (env : Env) (fs : FSState) (path : String)
    (flag : FileFlag) (cred : Cred) (root : IndexNode) (stats : Stats)
    (hroot : fs.index = some root)
    (hnode : getInode root path = some (.file stats))
    (hdata : stats.fileData = none)
    (hw : flag.writeable = false)
    (hacc : env.checkAccess stats.mode flag.mode cred = true)
    (hok : (env.net .get (getRemotePath fs.prefixUrl path)).ok = true) :
    ∃ fd fs' fd2,
      FetchFS.openFile env fs path flag cred =
        (.ok fd, fs', [⟨.get, getRemotePath fs.prefixUrl path⟩]) ∧
      fd.buffer = some (env.net .get (getRemotePath fs.prefixUrl path)).body ∧
      FetchFS.readFile env fs path flag cred =
        (.ok (some (env.net .get (getRemotePath fs.prefixUrl path)).body), fs',
         [⟨.get, getRemotePath fs.prefixUrl path⟩]) ∧
      FetchFS.openFile env fs' path flag cred = (.ok fd2, fs', []) ∧
      fd2.buffer = some (env.net .get (getRemotePath fs.prefixUrl path)).body := by
  have h1 := openFile_fetch env fs path flag cred root stats hroot hnode hdata hw hacc hok
  have h2 := resolve_updateAt
    (fun _ => .file { stats with
        size := .int (((env.net .get (getRemotePath fs.prefixUrl path)).body.length : Int)),
        fileData := some (env.net .get (getRemotePath fs.prefixUrl path)).body })
    (splitPath path) root (.file stats) hnode
  have h3 := openFile_cached env
    { fs with
       index := some (updateAt
         (fun _ => .file { stats with
             size := .int (((env.net .get (getRemotePath fs.prefixUrl path)).body.length : Int)),
             fileData := some (env.net .get (getRemotePath fs.prefixUrl path)).body })
         root (splitPath path)) }
    path flag cred _ _ _ rfl h2 rfl hw hacc
  exact ⟨_, _, _, h1, rfl, by simp [FetchFS.readFile, h1], h3, rfl⟩

/-- C2 witness: on the concrete index, opening the never-fetched `/a.txt`
issues one GET returning bytes 104 105; the handle, `readFile` and a second
`openFile` all yield those bytes, the second open without any request. -/
theorem c2_witness :
    ∃ fd fs' fd2,
      FetchFS.openFile envW fsW "/a.txt" flagR credW =
        (.ok fd, fs', [⟨.get, getRemotePath fsW.prefixUrl "/a.txt"⟩]) ∧
      fd.buffer = some (envW.net .get (getRemotePath fsW.prefixUrl "/a.txt")).body ∧
      FetchFS.readFile envW fsW "/a.txt" flagR credW =
        (.ok (some (envW.net .get (getRemotePath fsW.prefixUrl "/a.txt")).body), fs',
         [⟨.get, getRemotePath fsW.prefixUrl "/a.txt"⟩]) ∧
      FetchFS.openFile envW fs' "/a.txt" flagR credW = (.ok fd2, fs', []) ∧
      fd2.buffer = some (envW.net .get (getRemotePath fsW.prefixUrl "/a.txt")).body :=
  c2_open_then_read_round_trip envW fsW "/a.txt" flagR credW rootW
    ⟨.int (-1), 420, none⟩ rfl rfl rfl rfl rfl rfl

/-- C7: `preloadFile` on a file node succeeds with no network access (it
never consults the transport, which its signature reflects), and an
immediately following `openFile` returns a handle wrapping exactly the
preloaded bytes while issuing zero requests. -/
theorem c7_preload_then_open (env : Env) (fs : FSState) (path : String)
    (flag : FileFlag) (cred : Cred) (root : IndexNode) (stats : Stats)
    (buf : Bytes)
    (hroot : fs.index = some root)
    (hnode : getInode root path = some (.file stats))
    (hw : flag.writeable = false)
    (hacc : env.checkAccess stats.mode flag.mode cred = true) :
    ∃ fs' fd,
      FetchFS.preloadFile fs path buf = (.ok (), fs') ∧
      FetchFS.openFile env fs' path flag cred = (.ok fd, fs', []) ∧
      fd.buffer = some buf := by
  have h1 : FetchFS.preloadFile fs path buf =
      (.ok (),
       { fs with
          index := some (updateAt
            (fun _ => .file { stats with size := .int (buf.length : Int),
                                         fileData := some buf })
            root (splitPath path)) }) := by
    simp [FetchFS.preloadFile, hroot, hnode]
  have h2 := resolve_updateAt
    (fun _ => .file { stats with size := .int (buf.length : Int),
                                 fileData := some buf })
    (splitPath path) root (.file stats) hnode
  have h3 := openFile_cached env
    { fs with
       index := some (updateAt
         (fun _ => .file { stats with size := .int (buf.length : Int),
                                      fileData := some buf })
         root (splitPath path)) }
    path flag cred _ _ _ rfl h2 rfl hw hacc
  exact ⟨_, _, h1, h3, rfl⟩

/-- C7 witness: preloading bytes 7 8 into `/a.txt` and opening it returns
exactly those bytes with no request. -/
theorem c7_witness :
    ∃ fs' fd,
      FetchFS.preloadFile fsW "/a.txt" [7, 8] = (.ok (), fs') ∧
      FetchFS.openFile envW fs' "/a.txt" flagR credW = (.ok fd, fs', []) ∧
      fd.buffer = some [7, 8] :=
  c7_preload_then_open envW fsW "/a.txt" flagR credW rootW
    ⟨.int (-1), 420, none⟩ [7, 8] rfl rfl rfl rfl

/-- C4 counterexample: when the successful HEAD response carries no
`Content-Length` header, the first `stat` resolves the size to `-1`, so the
second `stat` issues a second HEAD — refuting the claim that one HEAD is
issued for every possible HEAD response. -/
theorem c4_counterexample :
    (FetchFS.stat envNoCL fsW "/a.txt" credW).2.2 =
      [⟨.head, "https://x/a.txt"⟩] ∧
    (FetchFS.stat envNoCL (FetchFS.stat envNoCL fsW "/a.txt" credW).2.1
        "/a.txt" credW).2.2 = [⟨.head, "https://x/a.txt"⟩] :=
  ⟨rfl, rfl⟩

/-- C4 amended: when the size parsed from the first HEAD response does not
compare below zero (a nonnegative `Content-Length`, or an unparsable one
giving NaN), the resolved size sticks: the second `stat` returns the same
stats and issues no request.  When the header is absent the resolved size
is `-1` and the second call re-issues HEAD (see the counterexample). -/
theorem c4_amended_stat_head_sticks (env : Env) (fs : FSState) (path : String)
    (cred : Cred) (root : IndexNode) (stats : Stats)
    (hroot : fs.index = some root)
    (hnode : getInode root path = some (.file stats))
    (hsz : jsLt stats.size 0 = true)
    (hacc : env.checkAccess stats.mode R_OK cred = true)
    (hok : (env.net .head (getRemotePath fs.prefixUrl path)).ok = true)
    (hstick : jsLt (parseIntJS (headerVal
        (env.net .head (getRemotePath fs.prefixUrl path)).contentLength)) 0
        = false) :
    ∃ stats' fs',
      FetchFS.stat env fs path cred =
        (.ok stats', fs', [⟨.head, getRemotePath fs.prefixUrl path⟩]) ∧
      FetchFS.stat env fs' path cred = (.ok stats', fs', []) := by
  have h1 := stat_fetch env fs path cred root stats hroot hnode hsz hacc hok
  have h2 := resolve_updateAt
    (fun _ => .file { stats with
        size := parseIntJS (headerVal
          (env.net .head (getRemotePath fs.prefixUrl path)).contentLength) })
    (splitPath path) root (.file stats) hnode
  have h3 := stat_cached env
    { fs with
       index := some (updateAt
         (fun _ => .file { stats with
             size := parseIntJS (headerVal
               (env.net .head (getRemotePath fs.prefixUrl path)).contentLength) })
         root (splitPath path)) }
    path cred _ _ rfl h2 hstick hacc
  exact ⟨_, _, h1, h3⟩

/-- C4 witness: with `Content-Length: 2`, the first `stat` on the
unknown-size file issues one HEAD and the second issues none. -/
theorem c4_witness :
    ∃ stats' fs',
      FetchFS.stat envW fsW "/a.txt" credW =
        (.ok stats', fs', [⟨.head, getRemotePath fsW.prefixUrl "/a.txt"⟩]) ∧
      FetchFS.stat envW fs' "/a.txt" credW = (.ok stats', fs', []) :=
  c4_amended_stat_head_sticks envW fsW "/a.txt" credW rootW
    ⟨.int (-1), 420, none⟩ rfl rfl rfl rfl rfl rfl

/-- C5 counterexample: a successful HEAD response whose `Content-Length`
is the unparsable string abc makes `stat` adopt NaN (JS
`parseInt('abc', 10)`), not `-1` as the claim states. -/
theorem c5_counterexample :
    (FetchFS.stat envBadCL fsW "/a.txt" credW).1 =
      .ok ⟨.nan, 420, none⟩ ∧ JSNum.nan ≠ JSNum.int (-1) :=
  ⟨rfl, by decide⟩

/-- C5 amended: `stat` on a file of unknown size issues one HEAD to the
remote URL (prefix plus path with the leading separator stripped, per
`getRemotePath`) and adopts `parseInt(Content-Length || '-1', 10)` as the
size, raising no error on any successful response; an absent or empty
header yields `-1`; a non-empty unparsable header yields NaN instead. -/
theorem c5_amended_stat_head_size (env : Env) (fs : FSState) (path : String)
    (cred : Cred) (root : IndexNode) (stats : Stats)
    (hroot : fs.index = some root)
    (hnode : getInode root path = some (.file stats))
    (hsz : jsLt stats.size 0 = true)
    (hacc : env.checkAccess stats.mode R_OK cred = true)
    (hok : (env.net .head (getRemotePath fs.prefixUrl path)).ok = true) :
    ∃ fs',
      FetchFS.stat env fs path cred =
        (.ok { stats with
                size := parseIntJS (headerVal
                  (env.net .head (getRemotePath fs.prefixUrl path)).contentLength) },
         fs', [⟨.head, getRemotePath fs.prefixUrl path⟩]) ∧
      ((env.net .head (getRemotePath fs.prefixUrl path)).contentLength = none →
        parseIntJS (headerVal
          (env.net .head (getRemotePath fs.prefixUrl path)).contentLength)
          = .int (-1)) ∧
      ((env.net .head (getRemotePath fs.prefixUrl path)).contentLength = some "" →
        parseIntJS (headerVal
          (env.net .head (getRemotePath fs.prefixUrl path)).contentLength)
          = .int (-1)) := by
  refine ⟨_, stat_fetch env fs path cred root stats hroot hnode hsz hacc hok,
    ?_, ?_⟩
  · intro h; rw [h]; rfl
  · intro h; rw [h]; rfl

/-- C5 witness: with a successful HEAD response carrying no
`Content-Length`, `stat` issues the HEAD to the prefixed URL and the
resulting size is `-1`, with no error. -/
theorem c5_witness :
    ∃ fs',
      FetchFS.stat envNoCL fsW "/a.txt" credW =
        (.ok { Stats.mk (.int (-1)) 420 none with
                size := parseIntJS (headerVal
                  (envNoCL.net .head (getRemotePath fsW.prefixUrl "/a.txt")).contentLength) },
         fs', [⟨.head, getRemotePath fsW.prefixUrl "/a.txt"⟩]) ∧
      ((envNoCL.net .head (getRemotePath fsW.prefixUrl "/a.txt")).contentLength = none →
        parseIntJS (headerVal
          (envNoCL.net .head (getRemotePath fsW.prefixUrl "/a.txt")).contentLength)
          = .int (-1)) ∧
      ((envNoCL.net .head (getRemotePath fsW.prefixUrl "/a.txt")).contentLength = some "" →
        parseIntJS (headerVal
          (envNoCL.net .head (getRemotePath fsW.prefixUrl "/a.txt")).contentLength)
          = .int (-1)) :=
  c5_amended_stat_head_size envNoCL fsW "/a.txt" credW rootW
    ⟨.int (-1), 420, none⟩ rfl rfl rfl rfl rfl

/-- C3: the size/contents agreement (every file node with cached bytes has
`size` equal to their length) is preserved by `stat`, `openFile`,
`preloadFile` and `empty`, over every state, path, mode, credential, buffer
and environment. -/
theorem c3_size_cache_invariant (env : Env) (fs : FSState) (path : String)
    (flag : FileFlag) (cred : Cred) (buf : Bytes)
    (hinv : fsInvB fs = true) :
    fsInvB (FetchFS.stat env fs path cred).2.1 = true ∧
    fsInvB (FetchFS.openFile env fs path flag cred).2.1 = true ∧
    fsInvB (FetchFS.preloadFile fs path buf).2 = true ∧
    fsInvB (FetchFS.empty fs).2 = true := by
  refine ⟨?_, ?_, ?_, ?_⟩
  · -- stat
    cases hidx : fs.index with
    | none => simp [FetchFS.stat, hidx, fsInvB]
    | some root =>
      have hroot : nodeInvB root = true := by simpa [fsInvB, hidx] using hinv
      cases hnode : getInode root path with
      | none => simp [FetchFS.stat, hidx, hnode, fsInvB, hroot]
      | some inode =>
        cases hacc : env.checkAccess inode.toStats.mode R_OK cred with
        | false => simp [FetchFS.stat, hidx, hnode, hacc, fsInvB, hroot]
        | true =>
          cases inode with
          | dir s cs => simp [FetchFS.stat, hidx, hnode, hacc, fsInvB, hroot]
          | file stats =>
            cases hsz : jsLt stats.size 0 with
            | false => simp [FetchFS.stat, hidx, hnode, hacc, hsz, fsInvB, hroot]
            | true =>
              have hst : statsOkB stats = true := by
                have := resolve_inv (splitPath path) root (.file stats) hnode hroot
                simpa [nodeInvB] using this
              have hfd : stats.fileData = none := by
                cases hfd : stats.fileData with
                | none => rfl
                | some b =>
                  exfalso
                  have hsize : stats.size = .int (b.length : Int) := by
                    simpa [statsOkB, hfd] using hst
                  rw [hsize] at hsz
                  simp only [jsLt, decide_eq_true_eq] at hsz
                  omega
              cases hfetch : fetchSize env (getRemotePath fs.prefixUrl path) with
              | mk e reqs =>
                cases e with
                | ok sz =>
                  simp only [FetchFS.stat, hidx, hnode, hacc, hsz, hfetch,
                    if_true, fsInvB]
                  exact nodeInv_updateAt _
                    (fun m => by simp [nodeInvB, statsOkB, hfd])
                    (splitPath path) root hroot
                | error er =>
                  simp [FetchFS.stat, hidx, hnode, hacc, hsz, hfetch, fsInvB,
                    hroot]
  · -- openFile
    cases hw : flag.writeable with
    | true => simpa [FetchFS.openFile, hw, fsInvB] using hinv
    | false =>
      cases hidx : fs.index with
      | none => simp [FetchFS.openFile, hw, hidx, fsInvB]
      | some root =>
        have hroot : nodeInvB root = true := by simpa [fsInvB, hidx] using hinv
        cases hnode : getInode root path with
        | none => simp [FetchFS.openFile, hw, hidx, hnode, fsInvB, hroot]
        | some inode =>
          cases hacc : env.checkAccess inode.toStats.mode flag.mode cred with
          | false => simp [FetchFS.openFile, hw, hidx, hnode, hacc, fsInvB, hroot]
          | true =>
            cases inode with
            | dir s cs => simp [FetchFS.openFile, hw, hidx, hnode, hacc, fsInvB, hroot]
            | file stats =>
              cases hfd : stats.fileData with
              | some data =>
                simp [FetchFS.openFile, hw, hidx, hnode, hacc, hfd, fsInvB, hroot]
              | none =>
                cases hfetch : fetchFileBuf env (getRemotePath fs.prefixUrl path) with
                | mk e reqs =>
                  cases e with
                  | ok data =>
                    simp only [FetchFS.openFile, hw, hidx, hnode, hacc, hfd,
                      hfetch, fsInvB]
                    exact nodeInv_updateAt _
                      (fun m => by simp [nodeInvB, statsOkB])
                      (splitPath path) root hroot
                  | error er =>
                    simp [FetchFS.openFile, hw, hidx, hnode, hacc, hfd, hfetch,
                      fsInvB, hroot]
  · -- preloadFile
    cases hidx : fs.index with
    | none => simp [FetchFS.preloadFile, hidx, fsInvB]
    | some root =>
      have hroot : nodeInvB root = true := by simpa [fsInvB, hidx] using hinv
      cases hnode : getInode root path with
      | none => simp [FetchFS.preloadFile, hidx, hnode, fsInvB, hroot]
      | some inode =>
        cases inode with
        | dir s cs => simp [FetchFS.preloadFile, hidx, hnode, fsInvB, hroot]
        | file stats =>
          simp only [FetchFS.preloadFile, hidx, hnode, fsInvB]
          exact nodeInv_updateAt _
            (fun m => by simp [nodeInvB, statsOkB])
            (splitPath path) root hroot
  · -- empty
    cases hidx : fs.index with
    | none => simp [FetchFS.empty, hidx, fsInvB]
    | some root =>
      simp only [FetchFS.empty, hidx, fsInvB]
      exact nodeInv_clear root

/-- C3 witness: the invariant holds of the concrete state (one file with
cached bytes of length two and size two, one without) and is preserved by
the four operations there. -/
theorem c3_witness :
    fsInvB fsW = true ∧
    (fsInvB (FetchFS.stat envW fsW "/a.txt" credW).2.1 = true ∧
     fsInvB (FetchFS.openFile envW fsW "/a.txt" flagR credW).2.1 = true ∧
     fsInvB (FetchFS.preloadFile fsW "/a.txt" [9]).2 = true ∧
     fsInvB (FetchFS.empty fsW).2 = true) :=
  ⟨by simp [fsInvB, fsW, rootW, nodeInvB, childrenInvB, statsOkB],
   c3_size_cache_invariant envW fsW "/a.txt" flagR credW [9]
     (by simp [fsInvB, fsW, rootW, nodeInvB, childrenInvB, statsOkB])⟩

/-- C8: `empty` replaces the index by its image under `clearFileData`,
which per-path is the pointwise clearing of each resolved node; at every
node it preserves the kind, the size, the mode and the child-name list,
clears a file's cached bytes, leaves a directory's stats entirely
untouched; and a subsequent `openFile` of any file (in particular any
previously-cached one) issues exactly one GET. -/
theorem c8_empty_clears_only_cached_bytes (env : Env) (fs : FSState)
    (root : IndexNode) (hroot : fs.index = some root) :
    FetchFS.empty fs = (.ok (), { fs with index := some (clearFileData root) }) ∧
    (∀ p, getInode (clearFileData root) p = (getInode root p).map clearFileData) ∧
    (∀ n : IndexNode,
      (clearFileData n).isFile = n.isFile ∧
      (clearFileData n).toStats.size = n.toStats.size ∧
      (clearFileData n).toStats.mode = n.toStats.mode ∧
      (clearFileData n).childNames = n.childNames ∧
      (n.isFile = true → (clearFileData n).toStats.fileData = none) ∧
      (n.isFile = false → (clearFileData n).toStats = n.toStats)) ∧
    (∀ (path : String) (flag : FileFlag) (cred : Cred) (stats : Stats),
      getInode root path = some (.file stats) →
      flag.writeable = false →
      env.checkAccess stats.mode flag.mode cred = true →
      (env.net .get (getRemotePath fs.prefixUrl path)).ok = true →
      ∃ fd fs2,
        FetchFS.openFile env { fs with index := some (clearFileData root) }
          path flag cred =
          (.ok fd, fs2, [⟨.get, getRemotePath fs.prefixUrl path⟩])) := by
  refine ⟨by simp [FetchFS.empty, hroot], ?_, ?_, ?_⟩
  · intro p
    exact resolve_clear (splitPath p) root
  · intro n
    cases n with
    | file s =>
      simp [clearFileData, IndexNode.isFile, IndexNode.toStats,
        IndexNode.childNames]
    | dir s cs =>
      simp [clearFileData, IndexNode.isFile, IndexNode.toStats,
        IndexNode.childNames, clearList_names]
  · intro path flag cred stats hnode hw hacc hok
    have hclear : getInode (clearFileData root) path =
        some (.file { stats with fileData := none }) := by
      have hres : resolveNode root (splitPath path) =
          some (.file stats) := hnode
      rw [getInode, resolve_clear (splitPath path) root, hres]
      simp [clearFileData]
    exact ⟨_, _, openFile_fetch env
      { fs with index := some (clearFileData root) } path flag cred
      (clearFileData root) { stats with fileData := none }
      rfl hclear rfl hw hacc hok⟩

/-- C8 witness: on the concrete state, `empty` yields the cleared index,
and re-opening the previously-cached `/dir/b.txt` issues exactly one GET. -/
theorem c8_witness :
    FetchFS.empty fsW = (.ok (), { fsW with index := some (clearFileData rootW) }) ∧
    ∃ fd fs2,
      FetchFS.openFile envW { fsW with index := some (clearFileData rootW) }
        "/dir/b.txt" flagR credW =
        (.ok fd, fs2, [⟨.get, getRemotePath fsW.prefixUrl "/dir/b.txt"⟩]) :=
  ⟨(c8_empty_clears_only_cached_bytes envW fsW rootW rfl).1,
   (c8_empty_clears_only_cached_bytes envW fsW rootW rfl).2.2.2 "/dir/b.txt"
     flagR credW ⟨.int 2, 420, some [104, 105]⟩ rfl rfl rfl rfl⟩
